import Mathlib

/-!
Verification development for the kafiza_website repository's data-access layer.

The repository implements a paginated, searchable, soft-deletable resource
store over MongoDB, duplicated in a JavaScript and a TypeScript variant for
two resource kinds (farmers, roasters), plus HTTP route handlers and a cached
connection manager.  This file gives a shallow embedding of those source
functions (documents as association lists of BSON-like values, a store as a
list of documents, Mongo operations as list functions) and proves or refutes
the frozen claims about them.
-/

/-- BSON-like field values stored in a document.  `objS` models the small
flat sub-objects (location, contact) the route handlers build, whose entries
are optional strings. -/
inductive Value where
  | str (s : String)
  | num (n : Int)
  | boolV (b : Bool)
  | date (t : Int)
  | arr (xs : List String)
  | objS (entries : List (String × Option String))
deriving Repr, DecidableEq

/-- Field lookup in a document's field list; the first binding wins, as for
JavaScript object keys. -/
def getFieldList (k : String) : List (String × Value) → Option Value
  | [] => none
  | (k', v) :: rest => if k' = k then some v else getFieldList k rest

/-- Replace the binding of `k` (first occurrence) or append it: the effect of
one `$set` entry on a document's field list. -/
def setFieldList (k : String) (v : Value) : List (String × Value) → List (String × Value)
  | [] => [(k, v)]
  | (k', v') :: rest => if k' = k then (k, v) :: rest else (k', v') :: setFieldList k v rest

/-- A stored document: the `_id` (as its 24-hex-character string form) plus
the remaining fields, `isActive`, `createdAt` and `updatedAt` included. -/
structure Doc where
  oid : String
  fields : List (String × Value)
deriving Repr, DecidableEq

def Doc.getField (d : Doc) (k : String) : Option Value := getFieldList k d.fields

def Doc.setField (d : Doc) (k : String) (v : Value) : Doc :=
  { d with fields := setFieldList k v d.fields }

/-- Apply a `$set` update document (a list of key/value pairs, later entries
overriding earlier ones, as with JS object spread). -/
def applySet (us : List (String × Value)) (d : Doc) : Doc :=
  us.foldl (fun d kv => d.setField kv.1 kv.2) d

/-- The Mongo filter `{ isActive: true }` on one document. -/
def isActiveDoc (d : Doc) : Bool :=
  match d.getField "isActive" with
  | some (.boolV true) => true
  | _ => false

def isHexChar (c : Char) : Bool :=
  c.isDigit || ('a' ≤ c && c ≤ 'f') || ('A' ≤ c && c ≤ 'F')

/-- `ObjectId.isValid` of the Node Mongo driver: a 24-character hex string
(or any 12-character string, taken as a 12-byte id). -/
def objectIdIsValid (s : String) : Bool :=
  s.length == 12 || (s.length == 24 && s.toList.all isHexChar)

/-- A collection's contents; list order models the store's natural order. -/
abbrev Store := List Doc

/-- `collection.updateOne(filter, update)`: update the first matching
document; the returned flag is `matchedCount > 0`. -/
def updateOne (p : Doc → Bool) (f : Doc → Doc) : Store → Bool × Store
  | [] => (false, [])
  | d :: ds =>
    if p d then (true, f d :: ds)
    else
      let r := updateOne p f ds
      (r.1, d :: r.2)

/-- `collection.findOneAndUpdate(filter, update, {returnDocument: 'after'})`:
update the first matching document and return its post-update state. -/
def findOneAndUpdateAfter (p : Doc → Bool) (f : Doc → Doc) : Store → Option Doc × Store
  | [] => (none, [])
  | d :: ds =>
    if p d then (some (f d), f d :: ds)
    else
      let r := findOneAndUpdateAfter p f ds
      (r.1, d :: r.2)

def countDocuments (p : Doc → Bool) (st : Store) : Nat := (st.filter p).length

/-- Codepoint-wise lexicographic comparison of strings (Mongo's binary
ordering on the strings appearing here). -/
def chListLe : List Char → List Char → Bool
  | [], _ => true
  | _ :: _, [] => false
  | a :: as, b :: bs => if a = b then chListLe as bs else decide (a.toNat < b.toNat)

def strLeB (x y : String) : Bool := chListLe x.toList y.toList

def lexLeStrList : List String → List String → Bool
  | [], _ => true
  | _ :: _, [] => false
  | x :: xs, y :: ys => if x = y then lexLeStrList xs ys else strLeB x y

/-- BSON type rank: a missing field sorts like null, before numbers, then
strings, objects, arrays, booleans, dates. -/
def typeRank : Option Value → Nat
  | none => 0
  | some (.num _) => 1
  | some (.str _) => 2
  | some (.objS _) => 3
  | some (.arr _) => 4
  | some (.boolV _) => 5
  | some (.date _) => 6

def boolLe (x y : Bool) : Bool := !x || y

/-- Mongo's sort comparison on (possibly missing) field values. -/
def valLe (a b : Option Value) : Bool :=
  if typeRank a = typeRank b then
    match a, b with
    | some (.num x), some (.num y) => decide (x ≤ y)
    | some (.str x), some (.str y) => strLeB x y
    | some (.date x), some (.date y) => decide (x ≤ y)
    | some (.boolV x), some (.boolV y) => boolLe x y
    | some (.arr x), some (.arr y) => lexLeStrList x y
    | _, _ => true
  else decide (typeRank a < typeRank b)

def docKey (f : String) (d : Doc) : Option Value := d.getField f

/-- Stable insertion into a sorted list (earlier elements stay first on
ties, modelling natural-order tie-breaking). -/
def insertSorted (le : Doc → Doc → Bool) (x : Doc) : List Doc → List Doc
  | [] => [x]
  | y :: ys => if le x y then x :: y :: ys else y :: insertSorted le x ys

def sortByLe (le : Doc → Doc → Bool) : List Doc → List Doc
  | [] => []
  | x :: xs => insertSorted le x (sortByLe le xs)

/-- `cursor.sort({field: dir})` with `dir` 1 (ascending) or -1 (descending). -/
def sortDocs (f : String) (dir : Int) (l : List Doc) : List Doc :=
  if dir = 1 then sortByLe (fun a b => valLe (docKey f a) (docKey f b)) l
  else sortByLe (fun a b => valLe (docKey f b) (docKey f a)) l

/-- Case-insensitive match of one pattern character: `.` is the regex
wildcard, any other character matches itself up to ASCII case. -/
def charMatchI (pc c : Char) : Bool := pc == '.' || pc.toLower == c.toLower

/-- Match the whole pattern at the start of the text. -/
def matchHere : List Char → List Char → Bool
  | [], _ => true
  | _ :: _, [] => false
  | p :: ps, c :: cs => charMatchI p c && matchHere ps cs

/-- Unanchored regex search, as `$regex` performs. -/
def regexFind (pat : List Char) : List Char → Bool
  | [] => matchHere pat []
  | c :: cs => matchHere pat (c :: cs) || regexFind pat cs

/-- The effect of `{ $regex: pat, $options: 'i' }` on a string value, for the
fragment of patterns exercised here (literal characters and the `.`
wildcard). -/
def mongoRegexTestI (pat text : String) : Bool := regexFind pat.toList text.toList

/-- Case-insensitive literal prefix test (spec side). -/
def hereCI : List Char → List Char → Bool
  | [], _ => true
  | _ :: _, [] => false
  | p :: ps, c :: cs => (p.toLower == c.toLower) && hereCI ps cs

/-- Case-insensitive literal substring occurrence (spec side). -/
def occursCI (pat : List Char) : List Char → Bool
  | [] => hereCI pat []
  | c :: cs => hereCI pat (c :: cs) || occursCI pat cs

/-- Modelled from the spec: "a case-insensitive substring match of
`queryText`".  This is the spec's wording, to compare against the code's
`$regex` matching. -/
def substringTestCI (pat text : String) : Bool := occursCI pat.toList text.toList

/-- PCRE metacharacters; a pattern avoiding all of them is matched literally
by `$regex`. -/
def regexMeta : List Char :=
  ['.', '^', '$', '*', '+', '?', '(', ')', '[', ']', '\x7b', '\x7d', '|', '\\']

def plainPattern (p : String) : Bool := p.toList.all (fun c => !(regexMeta.contains c))

/-- One `$or` disjunct `{ field: { $regex: q, $options: 'i' } }`: a string
field matches by regex search, an array field if some element matches, any
other shape (or a missing field) does not match. -/
def fieldRegexMatch (q : String) (d : Doc) (f : String) : Bool :=
  match d.getField f with
  | some (.str s) => mongoRegexTestI q s
  | some (.arr xs) => xs.any (fun s => mongoRegexTestI q s)
  | _ => false

/-- Response-side pagination block. -/
structure PageInfo where
  page : Int
  limit : Int
  total : Int
  totalPages : Int
  hasNext : Bool
  hasPrev : Bool
deriving Repr, DecidableEq

/-- The uniform `{success, data?, error?, message?}` envelope. -/
inductive ApiResp (α : Type) where
  | ok (data : α) (message : Option String)
  | err (error : String)
deriving Repr, DecidableEq

/-- Envelope of the paginated endpoints (`data` plus `pagination`, or an
error with the default pagination block). -/
inductive PagedResp where
  | ok (data : List Doc) (pg : PageInfo)
  | err (error : String) (pg : PageInfo)
deriving Repr, DecidableEq

def emptyPage : PageInfo :=
  { page := 1, limit := 10, total := 0, totalPages := 0, hasNext := false, hasPrev := false }

/-- `Math.ceil(total / limit)` for a document count and a limit; only the
`limit ≥ 1` regime is ever exercised by the claims. -/
def ceilPages (total : Nat) (limit : Int) : Int :=
  if limit ≤ 0 then 0 else Int.ofNat ((total + limit.toNat - 1) / limit.toNat)

/-- `cursor.limit(n)`: `0` means no limit, otherwise at most `|n|` results. -/
def applyLimit (limit : Int) (l : List Doc) : List Doc :=
  if limit = 0 then l else l.take limit.natAbs

/-- Request-side pagination parameters; `none` models an absent (undefined)
property. -/
structure PaginationParams where
  page : Option Int := none
  limit : Option Int := none
  sortBy : Option String := none
  sortOrder : Option String := none
deriving Repr, DecidableEq

/-- Message strings distinguishing the per-resource service instantiations. -/
structure SvcNames where
  invalidId : String
  notFound : String
  updNotFound : String
  updatedMsg : String
  deletedMsg : String
  listFail : String
  searchFail : String
deriving Repr, DecidableEq

/-- TypeScript-service `get...ById` (src/lib/services/roasters.ts:50-81 and
the farmers twin): validates the id shape, then `findOne({_id})` with no
`isActive` condition. -/
def tsGetById (nm : SvcNames) (st : Store) (id : String) : ApiResp Doc :=
  if !objectIdIsValid id then .err nm.invalidId
  else
    match st.find? (fun d => d.oid == id) with
    | none => .err nm.notFound
    | some d => .ok d none

/-- TypeScript-service list (src/lib/services/roasters.ts:86-127 and the
farmers twin): destructuring defaults page=1, limit=10, sortBy='createdAt',
sortOrder='desc'; filters `{isActive: true}`, counts the same filter, sorts,
skips `(page-1)*limit` and limits.  A negative skip makes the driver throw,
which the catch turns into the error envelope. -/
def tsList (nm : SvcNames) (st : Store) (ps : PaginationParams) : PagedResp :=
  let page := ps.page.getD 1
  let limit := ps.limit.getD 10
  let sortKey := ps.sortBy.getD "createdAt"
  let sortOrder := ps.sortOrder.getD "desc"
  let skip := (page - 1) * limit
  let dir : Int := if sortOrder = "asc" then 1 else -1
  let actives := st.filter isActiveDoc
  let total := actives.length
  let totalPages := ceilPages total limit
  if skip < 0 then .err nm.listFail emptyPage
  else
    .ok (applyLimit limit ((sortDocs sortKey dir actives).drop skip.toNat))
      { page := page, limit := limit, total := Int.ofNat total, totalPages := totalPages,
        hasNext := decide (page < totalPages), hasPrev := decide (1 < page) }

/-- TypeScript-service update (src/lib/services/roasters.ts:148-189 and the
farmers twin): validates the id, then `findOneAndUpdate({_id}, {$set:
{...updateData, updatedAt: now}}, {returnDocument: 'after'})`.  No check that
`updateData` is non-empty and no `isActive` condition. -/
def tsUpdate (nm : SvcNames) (st : Store) (id : String)
    (updateData : List (String × Value)) (now : Int) : ApiResp Doc × Store :=
  if !objectIdIsValid id then (.err nm.invalidId, st)
  else
    let updateDoc := updateData ++ [("updatedAt", Value.date now)]
    let r := findOneAndUpdateAfter (fun d => d.oid == id) (applySet updateDoc) st
    match r.1 with
    | none => (.err nm.notFound, st)
    | some d => (.ok d (some nm.updatedMsg), r.2)

/-- Soft delete, shared by all four service files: validates the id, then
`updateOne({_id}, {$set: {isActive: false, updatedAt: now}})` — the filter
does not require `isActive`, and `matchedCount === 0` yields not-found. -/
def delSet (now : Int) : List (String × Value) :=
  [("isActive", Value.boolV false), ("updatedAt", Value.date now)]

def svcDelete (nm : SvcNames) (st : Store) (id : String) (now : Int) :
    ApiResp Bool × Store :=
  if !objectIdIsValid id then (.err nm.invalidId, st)
  else
    let r := updateOne (fun d => d.oid == id) (applySet (delSet now)) st
    if r.1 then (.ok true (some nm.deletedMsg), r.2)
    else (.err nm.notFound, st)

/-- The `$or` search filter common to all search functions: `isActive` plus a
case-insensitive `$regex` on each field of the per-resource field set. -/
def searchFilterMatch (fieldSet : List String) (q : String) (d : Doc) : Bool :=
  isActiveDoc d && fieldSet.any (fieldRegexMatch q d)

/-- TypeScript-service search (src/lib/services/roasters.ts:234-303 and the
farmers twin): same destructuring defaults as the list, except a
resource-specific default sort field ('totalOrders' for roasters, 'rating'
for farmers). -/
def tsSearch (nm : SvcNames) (fieldSet : List String) (defaultSortBy : String)
    (st : Store) (q : String) (ps : PaginationParams) : PagedResp :=
  let page := ps.page.getD 1
  let limit := ps.limit.getD 10
  let sortKey := ps.sortBy.getD defaultSortBy
  let sortOrder := ps.sortOrder.getD "desc"
  let skip := (page - 1) * limit
  let dir : Int := if sortOrder = "asc" then 1 else -1
  let matched := st.filter (searchFilterMatch fieldSet q)
  let total := matched.length
  let totalPages := ceilPages total limit
  if skip < 0 then .err nm.searchFail emptyPage
  else
    .ok (applyLimit limit ((sortDocs sortKey dir matched).drop skip.toNat))
      { page := page, limit := limit, total := Int.ofNat total, totalPages := totalPages,
        hasNext := decide (page < totalPages), hasPrev := decide (1 < page) }

/-- JavaScript-service `get...ById` (src/lib/roasters.js:63-95,
src/lib/farmers.js:61-93): validates the id, then `findOne({_id, isActive:
true})`. -/
def jsGetById (nm : SvcNames) (st : Store) (id : String) : ApiResp Doc :=
  if !objectIdIsValid id then .err nm.invalidId
  else
    match st.find? (fun d => d.oid == id && isActiveDoc d) with
    | none => .err nm.notFound
    | some d => .ok d none

/-- JavaScript-service list (src/lib/roasters.js:102-157, farmers twin):
`page = params.page || 1` (zero is falsy), `limit = Math.min(params.limit ||
10, 100)` — an upper clamp only, with no validation; explicit `sortBy` uses
`sortOrder === 'desc' ? -1 : 1`, otherwise `createdAt` descending. -/
def jsList (nm : SvcNames) (st : Store) (ps : PaginationParams) : PagedResp :=
  let page := match ps.page with | none => 1 | some p => if p = 0 then 1 else p
  let limit := min (match ps.limit with | none => 10 | some l => if l = 0 then 10 else l) 100
  let skip := (page - 1) * limit
  let actives := st.filter isActiveDoc
  let sorted := match ps.sortBy with
    | some f => sortDocs f (if ps.sortOrder = some "desc" then -1 else 1) actives
    | none => sortDocs "createdAt" (-1) actives
  let total := actives.length
  let totalPages := ceilPages total limit
  if skip < 0 then .err nm.listFail emptyPage
  else
    .ok (applyLimit limit (sorted.drop skip.toNat))
      { page := page, limit := limit, total := Int.ofNat total, totalPages := totalPages,
        hasNext := decide (page < totalPages), hasPrev := decide (1 < page) }

/-- JavaScript-service update (src/lib/roasters.js:165-208, farmers twin):
`findOneAndUpdate({_id, isActive: true}, {$set: {...updateData, updatedAt}})`
with its distinct not-found message. -/
def jsUpdate (nm : SvcNames) (st : Store) (id : String)
    (updateData : List (String × Value)) (now : Int) : ApiResp Doc × Store :=
  if !objectIdIsValid id then (.err nm.invalidId, st)
  else
    let updateDoc := updateData ++ [("updatedAt", Value.date now)]
    let r := findOneAndUpdateAfter (fun d => d.oid == id && isActiveDoc d) (applySet updateDoc) st
    match r.1 with
    | none => (.err nm.updNotFound, st)
    | some d => (.ok d (some nm.updatedMsg), r.2)

/-- JavaScript-service search (src/lib/roasters.js:265-322, farmers twin):
same page/limit handling as the JS list, the `$or` regex filter, and a fixed
`createdAt` descending sort that ignores the requested sort parameters. -/
def jsSearch (nm : SvcNames) (fieldSet : List String)
    (st : Store) (q : String) (ps : PaginationParams) : PagedResp :=
  let page := match ps.page with | none => 1 | some p => if p = 0 then 1 else p
  let limit := min (match ps.limit with | none => 10 | some l => if l = 0 then 10 else l) 100
  let skip := (page - 1) * limit
  let matched := st.filter (searchFilterMatch fieldSet q)
  let sorted := sortDocs "createdAt" (-1) matched
  let total := matched.length
  let totalPages := ceilPages total limit
  if skip < 0 then .err nm.searchFail emptyPage
  else
    .ok (applyLimit limit (sorted.drop skip.toNat))
      { page := page, limit := limit, total := Int.ofNat total, totalPages := totalPages,
        hasNext := decide (page < totalPages), hasPrev := decide (1 < page) }

namespace RoastersTS

def names : SvcNames :=
  { invalidId := "Invalid roaster ID", notFound := "Roaster not found",
    updNotFound := "Roaster not found", updatedMsg := "Roaster updated successfully",
    deletedMsg := "Roaster deleted successfully", listFail := "Failed to fetch roasters",
    searchFail := "Failed to search roasters" }

def searchFields : List String :=
  ["location.city", "location.region", "businessType", "subscriptionTier", "businessName"]

def getRoasterById : Store → String → ApiResp Doc := tsGetById names

def getRoasters : Store → PaginationParams → PagedResp := tsList names

def updateRoaster : Store → String → List (String × Value) → Int → ApiResp Doc × Store :=
  tsUpdate names

def deleteRoaster : Store → String → Int → ApiResp Bool × Store := svcDelete names

def searchRoasters : Store → String → PaginationParams → PagedResp :=
  tsSearch names searchFields "totalOrders"

end RoastersTS

namespace FarmersTS

def names : SvcNames :=
  { invalidId := "Invalid farmer ID", notFound := "Farmer not found",
    updNotFound := "Farmer not found", updatedMsg := "Farmer updated successfully",
    deletedMsg := "Farmer deleted successfully", listFail := "Failed to fetch farmers",
    searchFail := "Failed to search farmers" }

def searchFields : List String :=
  ["location.state", "location.city", "coffeeTypes", "certifications", "farmName"]

def getFarmerById : Store → String → ApiResp Doc := tsGetById names

def getFarmers : Store → PaginationParams → PagedResp := tsList names

def updateFarmer : Store → String → List (String × Value) → Int → ApiResp Doc × Store :=
  tsUpdate names

def deleteFarmer : Store → String → Int → ApiResp Bool × Store := svcDelete names

def searchFarmers : Store → String → PaginationParams → PagedResp :=
  tsSearch names searchFields "rating"

end FarmersTS

namespace RoastersJS

def names : SvcNames :=
  { invalidId := "Invalid roaster ID format", notFound := "Roaster not found",
    updNotFound := "Roaster not found or could not be updated",
    updatedMsg := "Roaster updated successfully",
    deletedMsg := "Roaster deleted successfully", listFail := "Failed to fetch roasters",
    searchFail := "Failed to search roasters" }

def searchFields : List String := ["name", "location", "specialties"]

def getRoasterById : Store → String → ApiResp Doc := jsGetById names

def getRoasters : Store → PaginationParams → PagedResp := jsList names

def updateRoaster : Store → String → List (String × Value) → Int → ApiResp Doc × Store :=
  jsUpdate names

def deleteRoaster : Store → String → Int → ApiResp Bool × Store := svcDelete names

def searchRoasters : Store → String → PaginationParams → PagedResp := jsSearch names searchFields

end RoastersJS

namespace FarmersJS

def names : SvcNames :=
  { invalidId := "Invalid farmer ID format", notFound := "Farmer not found",
    updNotFound := "Farmer not found or could not be updated",
    updatedMsg := "Farmer updated successfully",
    deletedMsg := "Farmer deleted successfully", listFail := "Failed to fetch farmers",
    searchFail := "Failed to search farmers" }

def searchFields : List String := ["name", "location", "coffeeVarieties", "certifications"]

def getFarmerById : Store → String → ApiResp Doc := jsGetById names

def getFarmers : Store → PaginationParams → PagedResp := jsList names

def updateFarmer : Store → String → List (String × Value) → Int → ApiResp Doc × Store :=
  jsUpdate names

def deleteFarmer : Store → String → Int → ApiResp Bool × Store := svcDelete names

def searchFarmers : Store → String → PaginationParams → PagedResp := jsSearch names searchFields

end FarmersJS

/-- Nested `location` object of a farmer PUT body. -/
structure LocationBody where
  state : Option String := none
  city : Option String := none
deriving Repr, DecidableEq

/-- Nested `contact` object of a farmer PUT body. -/
structure ContactBody where
  email : Option String := none
  phone : Option String := none
  whatsapp : Option String := none
deriving Repr, DecidableEq

/-- The fields `handleUpdateFarmer` (src/pages/api/farmers/[id].ts:113-124)
destructures from the request body; `none` models an absent property.  Any
other body property is never read by the handler. -/
structure FarmerUpdateBody where
  name : Option String := none
  farmName : Option String := none
  location : Option LocationBody := none
  coffeeTypes : Option (List String) := none
  certifications : Option (List String) := none
  contact : Option ContactBody := none
  description : Option String := none
  images : Option (List String) := none
  isActive : Option Bool := none
  rating : Option Int := none
deriving Repr, DecidableEq

def entryName (b : FarmerUpdateBody) : List (String × Value) :=
  match b.name with | none => [] | some s => [("name", Value.str s.trim)]

def entryFarmName (b : FarmerUpdateBody) : List (String × Value) :=
  match b.farmName with | none => [] | some s => [("farmName", Value.str s.trim)]

def entryLocation (b : FarmerUpdateBody) : List (String × Value) :=
  match b.location with
  | none => []
  | some loc =>
    [("location", Value.objS
      [("state", loc.state.map String.trim), ("city", loc.city.map String.trim)])]

def entryCoffeeTypes (b : FarmerUpdateBody) : List (String × Value) :=
  match b.coffeeTypes with
  | none => []
  | some ts => if 0 < ts.length then [("coffeeTypes", Value.arr (ts.map String.trim))] else []

def entryCertifications (b : FarmerUpdateBody) : List (String × Value) :=
  match b.certifications with
  | none => []
  | some cs => [("certifications", Value.arr (cs.map String.trim))]

def contactEntries (c : ContactBody) : List (String × Option String) :=
  (match c.email with | none => [] | some e => [("email", some e.trim.toLower)]) ++
  (match c.phone with | none => [] | some p => [("phone", some p.trim)]) ++
  (match c.whatsapp with | none => [] | some w => [("whatsapp", some w.trim)])

def entryContact (b : FarmerUpdateBody) : List (String × Value) :=
  match b.contact with
  | none => []
  | some c => [("contact", Value.objS (contactEntries c))]

def entryDescription (b : FarmerUpdateBody) : List (String × Value) :=
  match b.description with | none => [] | some s => [("description", Value.str s.trim)]

def entryImages (b : FarmerUpdateBody) : List (String × Value) :=
  match b.images with | none => [] | some xs => [("images", Value.arr xs)]

def entryIsActive (b : FarmerUpdateBody) : List (String × Value) :=
  match b.isActive with | none => [] | some v => [("isActive", Value.boolV v)]

def entryRating (b : FarmerUpdateBody) : List (String × Value) :=
  match b.rating with
  | none => []
  | some r => if 0 ≤ r ∧ r ≤ 5 then [("rating", Value.num r)] else []

/-- The `updateData` object `handleUpdateFarmer` builds from the body
(src/pages/api/farmers/[id].ts:126-166): only provided fields are included,
with per-field normalization and validity filtering. -/
def buildFarmerUpdateData (b : FarmerUpdateBody) : List (String × Value) :=
  entryName b ++ entryFarmName b ++ entryLocation b ++ entryCoffeeTypes b ++
  entryCertifications b ++ entryContact b ++ entryDescription b ++ entryImages b ++
  entryIsActive b ++ entryRating b

/-- HTTP status code plus response body. -/
structure HttpResp (α : Type) where
  status : Nat
  body : ApiResp α
deriving Repr, DecidableEq

/-- `handleUpdateFarmer` (src/pages/api/farmers/[id].ts:99-196): builds the
update object, rejects an empty field set with 400, otherwise calls the
TypeScript farmers service and maps its not-found error to 404, any other
failure to 400. -/
def handleUpdateFarmer (st : Store) (id : String) (b : FarmerUpdateBody) (now : Int) :
    HttpResp Doc × Store :=
  let updateData := buildFarmerUpdateData b
  if updateData.length = 0 then
    (⟨400, .err "No valid fields provided for update"⟩, st)
  else
    let r := FarmersTS.updateFarmer st id updateData now
    match r.1 with
    | .ok d m => (⟨200, .ok d m⟩, r.2)
    | .err e => (⟨if e = "Farmer not found" then 404 else 400, .err e⟩, r.2)

/-- `handleDeleteFarmer` (src/pages/api/farmers/[id].ts:201-225). -/
def handleDeleteFarmer (st : Store) (id : String) (now : Int) : HttpResp Bool × Store :=
  let r := FarmersTS.deleteFarmer st id now
  match r.1 with
  | .ok d m => (⟨200, .ok d m⟩, r.2)
  | .err e => (⟨if e = "Farmer not found" then 404 else 400, .err e⟩, r.2)

/-- `handleGetFarmer` (src/pages/api/farmers/[id].ts:70-94). -/
def handleGetFarmer (st : Store) (id : String) : HttpResp Doc :=
  match FarmersTS.getFarmerById st id with
  | .ok d m => ⟨200, .ok d m⟩
  | .err e => ⟨if e = "Farmer not found" then 404 else 400, .err e⟩

/-- `handleGetRoaster` (roasters [id] route): identical shape over the
TypeScript roasters service. -/
def handleGetRoaster (st : Store) (id : String) : HttpResp Doc :=
  match RoastersTS.getRoasterById st id with
  | .ok d m => ⟨200, .ok d m⟩
  | .err e => ⟨if e = "Roaster not found" then 404 else 400, .err e⟩

/-- The `[id]` route's outer guard (`if (!id || typeof id !== 'string')`)
followed by the GET branch, for the roasters route. -/
def roasterGetRoute (st : Store) (id : String) : HttpResp Doc :=
  if id = "" then ⟨400, .err "Roaster ID is required"⟩
  else handleGetRoaster st id

/-- The farmers `[id]` route's outer guard followed by the PUT branch. -/
def farmerPutRoute (st : Store) (id : String) (b : FarmerUpdateBody) (now : Int) :
    HttpResp Doc × Store :=
  if id = "" then (⟨400, .err "Farmer ID is required"⟩, st)
  else handleUpdateFarmer st id b now

/-- The farmers `[id]` route's outer guard followed by the DELETE branch. -/
def farmerDeleteRoute (st : Store) (id : String) (now : Int) : HttpResp Bool × Store :=
  if id = "" then (⟨400, .err "Farmer ID is required"⟩, st)
  else handleDeleteFarmer st id now

/-- Digit-string value. -/
def digitsVal (cs : List Char) : Nat := cs.foldl (fun a c => a * 10 + (c.toNat - 48)) 0

/-- JavaScript `parseInt(s, 10)`: parse an optionally signed leading digit
run; `none` models `NaN`. -/
def parseIntJS (s : String) : Option Int :=
  let signed : Bool × List Char :=
    match s.toList with
    | '-' :: rest => (true, rest)
    | '+' :: rest => (false, rest)
    | cs => (false, cs)
  let ds := signed.2.takeWhile Char.isDigit
  if ds.isEmpty then none
  else some (if signed.1 then -(digitsVal ds : Int) else (digitsVal ds : Int))

/-- Query string of `GET /api/farmers` (src/pages/api/farmers/index.ts). -/
structure FarmersQuery where
  page : Option String := none
  limit : Option String := none
  sortBy : Option String := none
  sortOrder : Option String := none
  search : Option String := none
deriving Repr, DecidableEq

/-- Result of the farmers list route: a 400 validation rejection, or a 200
with the service's paginated envelope. -/
inductive FarmersListResult where
  | invalid (status : Nat) (error : String)
  | listed (status : Nat) (r : PagedResp)
deriving Repr, DecidableEq

/-- `handleGetFarmers` (src/pages/api/farmers/index.ts:57-117): parses and
validates `page` (≥ 1) and `limit` (in [1,100]) before any service call,
then dispatches to search (non-empty `search`) or plain list. -/
def handleGetFarmers (st : Store) (q : FarmersQuery) : FarmersListResult :=
  let pageS := q.page.getD "1"
  let limitS := q.limit.getD "10"
  let sortByS := q.sortBy.getD "createdAt"
  let sortOrderS := q.sortOrder.getD "desc"
  let searchS := q.search.getD ""
  match parseIntJS pageS with
  | none => .invalid 400 "Invalid page number"
  | some pageNum =>
    if pageNum < 1 then .invalid 400 "Invalid page number"
    else
      match parseIntJS limitS with
      | none => .invalid 400 "Invalid limit (must be between 1 and 100)"
      | some limitNum =>
        if limitNum < 1 || 100 < limitNum then
          .invalid 400 "Invalid limit (must be between 1 and 100)"
        else
          let ps : PaginationParams :=
            { page := some pageNum, limit := some limitNum,
              sortBy := some sortByS, sortOrder := some sortOrderS }
          if searchS ≠ "" then .listed 200 (FarmersTS.searchFarmers st searchS ps)
          else .listed 200 (FarmersTS.getFarmers st ps)

/-- Module-level cache of the connection utilities: the cached client, the
cached db handle and the stored in-flight client promise.  A settled promise
is modelled by its outcome. -/
structure ConnCache where
  cachedClient : Option Nat
  cachedDb : Option Nat
  clientPromise : Option (Except String Nat)
deriving Repr

def emptyCache : ConnCache := ⟨none, none, none⟩

/-- TypeScript `connectToClient` (mongodb.ts): returns the cached client if
set, otherwise awaits a stored promise, otherwise stores `client.connect()`
in the module cache and awaits it.  Nothing is cleared when the awaited
promise rejects.  `attempt` is the outcome a fresh connection attempt would
have now. -/
def tsConnectToClient (st : ConnCache) (attempt : Except String Nat) :
    Except String Nat × ConnCache :=
  match st.cachedClient with
  | some c => (.ok c, st)
  | none =>
    match st.clientPromise with
    | some (Except.ok c) => (.ok c, { st with cachedClient := some c })
    | some (Except.error e) => (.error e, st)
    | none =>
      let st1 := { st with clientPromise := some attempt }
      match attempt with
      | .ok c => (.ok c, { st1 with cachedClient := some c })
      | .error e => (.error e, st1)

/-- JavaScript `connectToClient` (mongodb.js:254-289): same caching shape,
but the catch block resets the stored promise to null before rethrowing. -/
def jsConnectToClient (st : ConnCache) (attempt : Except String Nat) :
    Except String Nat × ConnCache :=
  match st.cachedClient with
  | some c => (.ok c, st)
  | none =>
    let p := st.clientPromise.getD attempt
    match p with
    | .ok c => (.ok c, { st with cachedClient := some c, clientPromise := some p })
    | .error e => (.error e, { st with clientPromise := none })

/-- Modelled from the spec: a record matches the search exactly when it is
active and `queryText` occurs as a case-insensitive substring of at least one
field of the resource-kind-specific field set (logical OR). -/
def fieldSubstrMatch (q : String) (d : Doc) (f : String) : Bool :=
  match d.getField f with
  | some (.str s) => substringTestCI q s
  | some (.arr xs) => xs.any (fun s => substringTestCI q s)
  | _ => false

/-- Modelled from the spec: the whole search matching rule as the spec words
it. -/
def specSearchMatch (fieldSet : List String) (q : String) (d : Doc) : Bool :=
  isActiveDoc d && fieldSet.any (fieldSubstrMatch q d)

def oidA : String := "aaaaaaaaaaaaaaaaaaaaaaaa"

def oidB : String := "bbbbbbbbbbbbbbbbbbbbbbbb"

def pagedSuccess : PagedResp → Bool
  | .ok _ _ => true
  | .err _ _ => false

def pagedLimit : PagedResp → Int
  | .ok _ pg => pg.limit
  | .err _ pg => pg.limit

def c3Doc : Doc :=
  ⟨oidA, [("isActive", Value.boolV true), ("name", Value.str "Ana"),
    ("createdAt", Value.date 0), ("updatedAt", Value.date 0)]⟩

def c1Doc : Doc :=
  ⟨oidA, [("isActive", Value.boolV true), ("businessName", Value.str "Acme Roastery"),
    ("createdAt", Value.date 0), ("updatedAt", Value.date 0)]⟩

def c1DocDeleted : Doc :=
  ⟨oidA, [("isActive", Value.boolV false), ("businessName", Value.str "Acme Roastery"),
    ("createdAt", Value.date 0), ("updatedAt", Value.date 1)]⟩

def c4Doc : Doc :=
  ⟨oidA, [("isActive", Value.boolV true), ("businessName", Value.str "Acme"),
    ("updatedAt", Value.date 0)]⟩

def c4WitDoc : Doc :=
  ⟨oidB, [("A", Value.num 1), ("B", Value.num 2), ("updatedAt", Value.date 0)]⟩

def c2Body : FarmerUpdateBody :=
  { name := none, farmName := none, location := none, coffeeTypes := none,
    certifications := none, contact := none, description := none, images := none,
    isActive := some true, rating := none }

def c2Doc : Doc :=
  ⟨oidA, [("isActive", Value.boolV false), ("name", Value.str "Ze"),
    ("updatedAt", Value.date 0)]⟩

def c2DocAfter : Doc :=
  ⟨oidA, [("isActive", Value.boolV true), ("name", Value.str "Ze"),
    ("updatedAt", Value.date 5)]⟩

def c7Doc : Doc :=
  ⟨oidA, [("isActive", Value.boolV true), ("businessName", Value.str "ab"),
    ("totalOrders", Value.num 3), ("createdAt", Value.date 0)]⟩

def c7SaoDoc : Doc :=
  ⟨oidB, [("isActive", Value.boolV true), ("location.city", Value.str "São Paulo"),
    ("totalOrders", Value.num 1), ("createdAt", Value.date 0)]⟩

def c8DocA : Doc :=
  ⟨oidA, [("isActive", Value.boolV true), ("name", Value.str "a"),
    ("createdAt", Value.date 1)]⟩

def c8DocB : Doc :=
  ⟨oidB, [("isActive", Value.boolV true), ("name", Value.str "b"),
    ("createdAt", Value.date 2)]⟩

def c8Store : Store := [c8DocA, c8DocB]

theorem getFieldList_setFieldList_self (k : String) (v : Value) (l : List (String × Value)) :
    getFieldList k (setFieldList k v l) = some v := by
  induction l with
  | nil => simp [setFieldList, getFieldList]
  | cons kv rest ih =>
    by_cases h : kv.1 = k
    · simp [setFieldList, getFieldList, h]
    · simp [setFieldList, getFieldList, h, ih]

theorem getFieldList_setFieldList_ne (k k' : String) (v : Value) (l : List (String × Value))
    (h : k' ≠ k) : getFieldList k' (setFieldList k v l) = getFieldList k' l := by
  induction l with
  | nil =>
    simp only [setFieldList, getFieldList]
    rw [if_neg (fun hh => h hh.symm)]
  | cons kv rest ih =>
    by_cases hk : kv.1 = k
    · simp only [setFieldList, hk, if_true, getFieldList]
      rw [if_neg (fun hh => h hh.symm), if_neg (fun hh => h hh.symm)]
    · simp only [setFieldList, hk, if_false, getFieldList]
      by_cases hk' : kv.1 = k'
      · rw [if_pos hk', if_pos hk']
      · rw [if_neg hk', if_neg hk', ih]

theorem Doc.getField_setField_self (d : Doc) (k : String) (v : Value) :
    (d.setField k v).getField k = some v :=
  getFieldList_setFieldList_self k v d.fields

theorem Doc.getField_setField_ne (d : Doc) (k k' : String) (v : Value) (h : k' ≠ k) :
    (d.setField k v).getField k' = d.getField k' :=
  getFieldList_setFieldList_ne k k' v d.fields h

theorem Doc.oid_setField (d : Doc) (k : String) (v : Value) :
    (d.setField k v).oid = d.oid := rfl

theorem applySet_nil (d : Doc) : applySet [] d = d := rfl

theorem applySet_cons (k : String) (v : Value) (us : List (String × Value)) (d : Doc) :
    applySet ((k, v) :: us) d = applySet us (d.setField k v) := rfl

theorem applySet_oid (us : List (String × Value)) (d : Doc) :
    (applySet us d).oid = d.oid := by
  induction us generalizing d with
  | nil => rfl
  | cons kv rest ih => simpa [applySet_cons] using ih (d.setField kv.1 kv.2)

theorem applySet_getField_notMem (us : List (String × Value)) (d : Doc) (k : String)
    (h : k ∉ us.map Prod.fst) : (applySet us d).getField k = d.getField k := by
  induction us generalizing d with
  | nil => rfl
  | cons kv rest ih =>
    simp only [List.map_cons, List.mem_cons, not_or] at h
    rw [applySet_cons kv.1 kv.2, ih (d.setField kv.1 kv.2) h.2,
      Doc.getField_setField_ne d kv.1 k kv.2 h.1]

theorem getFieldList_some_mem_keys (k : String) (v : Value) (us : List (String × Value))
    (h : getFieldList k us = some v) : k ∈ us.map Prod.fst := by
  induction us with
  | nil => simp [getFieldList] at h
  | cons kv rest ih =>
    by_cases hk : kv.1 = k
    · simp [hk]
    · simp only [getFieldList, hk, if_false] at h
      simp [ih h]

theorem applySet_getField_mem (us : List (String × Value)) (d : Doc) (k : String) (v : Value)
    (hnd : (us.map Prod.fst).Nodup) (h : getFieldList k us = some v) :
    (applySet us d).getField k = some v := by
  induction us generalizing d with
  | nil => simp [getFieldList] at h
  | cons kv rest ih =>
    simp only [List.map_cons, List.nodup_cons] at hnd
    by_cases hk : kv.1 = k
    · simp only [getFieldList, hk, if_true] at h
      subst hk
      rw [applySet_cons kv.1 kv.2, applySet_getField_notMem rest _ kv.1 hnd.1,
        Doc.getField_setField_self]
      simp [h]
    · simp only [getFieldList, hk, if_false] at h
      rw [applySet_cons kv.1 kv.2, ih _ hnd.2 h]

theorem applySet_append_single (us : List (String × Value)) (k : String) (v : Value) (d : Doc) :
    applySet (us ++ [(k, v)]) d = (applySet us d).setField k v := by
  simp [applySet, List.foldl_append]

theorem updateOne_fst (p : Doc → Bool) (f : Doc → Doc) (st : Store) :
    (updateOne p f st).1 = st.any p := by
  induction st with
  | nil => rfl
  | cons d ds ih =>
    by_cases hp : p d
    · simp [updateOne, hp]
    · simp [updateOne, hp, ih]

theorem updateOne_length (p : Doc → Bool) (f : Doc → Doc) (st : Store) :
    (updateOne p f st).2.length = st.length := by
  induction st with
  | nil => rfl
  | cons d ds ih =>
    by_cases hp : p d
    · simp [updateOne, hp]
    · simp [updateOne, hp, ih]

theorem updateOne_any_preserved (p : Doc → Bool) (f : Doc → Doc) (st : Store)
    (hf : ∀ d, p d = true → p (f d) = true) :
    (updateOne p f st).2.any p = st.any p := by
  induction st with
  | nil => rfl
  | cons d ds ih =>
    by_cases hp : p d
    · simp [updateOne, hp, hf d hp]
    · simp [updateOne, hp, ih]

theorem updateOne_spec (p : Doc → Bool) (f : Doc → Doc) (st : Store) :
    ((updateOne p f st).1 = false ∧ (updateOne p f st).2 = st)
    ∨ (∃ l1 d l2, st = l1 ++ d :: l2 ∧ (∀ x ∈ l1, p x = false) ∧ p d = true ∧
        (updateOne p f st).1 = true ∧ (updateOne p f st).2 = l1 ++ f d :: l2) := by
  induction st with
  | nil => exact Or.inl ⟨rfl, rfl⟩
  | cons d ds ih =>
    by_cases hp : p d
    · refine Or.inr ⟨[], d, ds, by simp, by simp, hp, ?_, ?_⟩ <;> simp [updateOne, hp]
    · rcases ih with ⟨h1, h2⟩ | ⟨l1, e, l2, hst, hl1, he, hflag, hsnd⟩
      · exact Or.inl ⟨by simp [updateOne, hp, h1], by simp [updateOne, hp, h2]⟩
      · refine Or.inr ⟨d :: l1, e, l2, by simp [hst], ?_, he, ?_, ?_⟩
        · intro x hx
          rcases List.mem_cons.mp hx with hx | hx
          · simpa [hx] using hp
          · exact hl1 x hx
        · simp [updateOne, hp, hflag]
        · simp [updateOne, hp, hsnd]

theorem findOneAndUpdateAfter_eq (p : Doc → Bool) (f : Doc → Doc) (st : Store) :
    findOneAndUpdateAfter p f st = ((st.find? p).map f, (updateOne p f st).2) := by
  induction st with
  | nil => rfl
  | cons d ds ih =>
    cases hp : p d
    · simp [findOneAndUpdateAfter, updateOne, List.find?, hp, ih]
    · simp [findOneAndUpdateAfter, updateOne, List.find?, hp]

theorem length_insertSorted (le : Doc → Doc → Bool) (x : Doc) (l : List Doc) :
    (insertSorted le x l).length = l.length + 1 := by
  induction l with
  | nil => rfl
  | cons y ys ih =>
    by_cases h : le x y
    · simp [insertSorted, h]
    · simp [insertSorted, h, ih]

theorem length_sortByLe (le : Doc → Doc → Bool) (l : List Doc) :
    (sortByLe le l).length = l.length := by
  induction l with
  | nil => rfl
  | cons x xs ih => simp [sortByLe, length_insertSorted, ih]

theorem length_sortDocs (f : String) (dir : Int) (l : List Doc) :
    (sortDocs f dir l).length = l.length := by
  by_cases h : dir = 1 <;> simp [sortDocs, h, length_sortByLe]

theorem mem_insertSorted (le : Doc → Doc → Bool) (x y : Doc) (l : List Doc) :
    y ∈ insertSorted le x l ↔ y = x ∨ y ∈ l := by
  induction l with
  | nil => simp [insertSorted]
  | cons z zs ih =>
    rw [insertSorted]
    by_cases h : le x z = true
    · rw [if_pos h]
      simp only [List.mem_cons]
    · rw [if_neg h]
      simp only [List.mem_cons, ih]
      tauto

theorem mem_sortByLe (le : Doc → Doc → Bool) (y : Doc) (l : List Doc) :
    y ∈ sortByLe le l ↔ y ∈ l := by
  induction l with
  | nil => simp [sortByLe]
  | cons x xs ih => simp [sortByLe, mem_insertSorted, ih]

theorem mem_sortDocs (f : String) (dir : Int) (y : Doc) (l : List Doc) :
    y ∈ sortDocs f dir l ↔ y ∈ l := by
  by_cases h : dir = 1 <;> simp [sortDocs, h, mem_sortByLe]

theorem mem_applyLimit (limit : Int) (y : Doc) (l : List Doc) (h : y ∈ applyLimit limit l) :
    y ∈ l := by
  by_cases h0 : limit = 0
  · simpa [applyLimit, h0] using h
  · exact List.take_subset _ _ (by simpa [applyLimit, h0] using h)

theorem svcDelete_ok_parts (nm : SvcNames) (st : Store) (id : String) (now : Int)
    (b : Bool) (m : Option String)
    (h : (svcDelete nm st id now).1 = ApiResp.ok b m) :
    objectIdIsValid id = true
    ∧ (updateOne (fun d => d.oid == id) (applySet (delSet now)) st).1 = true
    ∧ (svcDelete nm st id now).2
        = (updateOne (fun d => d.oid == id) (applySet (delSet now)) st).2 := by
  cases hv : objectIdIsValid id with
  | false => simp [svcDelete, hv] at h
  | true =>
    cases hr : (updateOne (fun d => d.oid == id) (applySet (delSet now)) st).1 with
    | false => simp [svcDelete, hv, hr] at h
    | true => exact ⟨rfl, rfl, by simp [svcDelete, hv, hr]⟩

theorem svcDelete_err_notFound (nm : SvcNames) (st : Store) (id : String) (now : Int)
    (hne : nm.invalidId ≠ nm.notFound)
    (h : (svcDelete nm st id now).1 = ApiResp.err nm.notFound) :
    ∀ d ∈ st, d.oid ≠ id := by
  cases hv : objectIdIsValid id with
  | false =>
    simp [svcDelete, hv] at h
    exact absurd h hne
  | true =>
    cases hr : (updateOne (fun d => d.oid == id) (applySet (delSet now)) st).1 with
    | true => simp [svcDelete, hv, hr] at h
    | false =>
      rw [updateOne_fst] at hr
      intro d hd heq
      have hx : st.any (fun d => d.oid == id) = true :=
        List.any_eq_true.mpr ⟨d, hd, by simp [heq]⟩
      rw [hx] at hr
      simp at hr

theorem svcDelete_twice (nm : SvcNames) (st : Store) (id : String) (t1 t2 : Int)
    (hv : objectIdIsValid id = true)
    (hex : st.any (fun d => d.oid == id) = true) :
    (svcDelete nm st id t1).1 = ApiResp.ok true (some nm.deletedMsg)
    ∧ (svcDelete nm (svcDelete nm st id t1).2 id t2).1
        = ApiResp.ok true (some nm.deletedMsg) := by
  have h1 : (updateOne (fun d => d.oid == id) (applySet (delSet t1)) st).1 = true := by
    rw [updateOne_fst]
    exact hex
  have hpres :
      (updateOne (fun d => d.oid == id) (applySet (delSet t1)) st).2.any
        (fun d => d.oid == id) = true := by
    rw [updateOne_any_preserved]
    · exact hex
    · intro d hd
      simpa [applySet_oid] using hd
  refine ⟨by simp [svcDelete, hv, h1], ?_⟩
  have hsnd : (svcDelete nm st id t1).2
      = (updateOne (fun d => d.oid == id) (applySet (delSet t1)) st).2 := by
    simp [svcDelete, hv, h1]
  rw [hsnd]
  have h2 : (updateOne (fun d => d.oid == id) (applySet (delSet t2))
      ((updateOne (fun d => d.oid == id) (applySet (delSet t1)) st).2)).1 = true := by
    rw [updateOne_fst]
    exact hpres
  simp [svcDelete, hv, h2]

theorem tsUpdate_found (nm : SvcNames) (st : Store) (id : String)
    (us : List (String × Value)) (now : Int) (d0 : Doc)
    (hv : objectIdIsValid id = true)
    (hf : st.find? (fun x => x.oid == id) = some d0) :
    tsUpdate nm st id us now =
      (ApiResp.ok (applySet (us ++ [("updatedAt", Value.date now)]) d0) (some nm.updatedMsg),
       (updateOne (fun x => x.oid == id)
          (applySet (us ++ [("updatedAt", Value.date now)])) st).2) := by
  simp [tsUpdate, hv, findOneAndUpdateAfter_eq, hf]

theorem tsUpdate_ok_parts (nm : SvcNames) (st : Store) (id : String)
    (us : List (String × Value)) (now : Int) (d : Doc) (m : Option String)
    (h : (tsUpdate nm st id us now).1 = ApiResp.ok d m) :
    objectIdIsValid id = true
    ∧ ∃ d0, st.find? (fun x => x.oid == id) = some d0
        ∧ d = applySet (us ++ [("updatedAt", Value.date now)]) d0 := by
  cases hv : objectIdIsValid id with
  | false => simp [tsUpdate, hv] at h
  | true =>
    cases hf : st.find? (fun x => x.oid == id) with
    | none => simp [tsUpdate, hv, findOneAndUpdateAfter_eq, hf] at h
    | some d0 =>
      rw [tsUpdate_found nm st id us now d0 hv hf] at h
      simp only [ApiResp.ok.injEq] at h
      exact ⟨rfl, d0, rfl, h.1.symm⟩

theorem tsList_data_active (nm : SvcNames) (st : Store) (ps : PaginationParams)
    (data : List Doc) (pg : PageInfo) (h : tsList nm st ps = PagedResp.ok data pg) :
    ∀ d ∈ data, isActiveDoc d = true := by
  intro d hd
  by_cases hskip : (ps.page.getD 1 - 1) * ps.limit.getD 10 < 0
  · simp [tsList, hskip] at h
  · simp only [tsList, if_neg hskip, PagedResp.ok.injEq] at h
    rw [← h.1] at hd
    have hd2 := List.drop_subset _ _ (mem_applyLimit _ _ _ hd)
    have hd3 := (mem_sortDocs _ _ _ _).mp hd2
    exact (List.mem_filter.mp hd3).2

theorem tsSearch_data_match (nm : SvcNames) (flds : List String) (dflt : String)
    (st : Store) (q : String) (ps : PaginationParams)
    (data : List Doc) (pg : PageInfo)
    (h : tsSearch nm flds dflt st q ps = PagedResp.ok data pg) :
    ∀ d ∈ data, searchFilterMatch flds q d = true := by
  intro d hd
  by_cases hskip : (ps.page.getD 1 - 1) * ps.limit.getD 10 < 0
  · simp [tsSearch, hskip] at h
  · simp only [tsSearch, if_neg hskip, PagedResp.ok.injEq] at h
    rw [← h.1] at hd
    have hd2 := List.drop_subset _ _ (mem_applyLimit _ _ _ hd)
    have hd3 := (mem_sortDocs _ _ _ _).mp hd2
    exact (List.mem_filter.mp hd3).2

theorem ceilPages_le_of_le (total : Nat) (p l : Int) (hp : 1 ≤ p) (hl : 1 ≤ l)
    (h : (total : Int) ≤ (p - 1) * l) : ceilPages total l ≤ p - 1 := by
  have hl0 : ¬ l ≤ 0 := by omega
  rw [ceilPages, if_neg hl0]
  have hcast : ((p - 1).toNat : Int) = p - 1 := Int.toNat_of_nonneg (by omega)
  have hlcast : ((l.toNat : Int)) = l := Int.toNat_of_nonneg (by omega)
  have hNat : total ≤ (p - 1).toNat * l.toNat := by
    rw [← hcast, ← hlcast] at h
    exact_mod_cast h
  have hdiv : (total + l.toNat - 1) / l.toNat ≤ (p - 1).toNat := by
    rw [Nat.div_le_iff_le_mul_add_pred (by omega)]
    have hm : l.toNat * (p - 1).toNat = (p - 1).toNat * l.toNat := Nat.mul_comm _ _
    omega
  calc (Int.ofNat ((total + l.toNat - 1) / l.toNat))
      ≤ Int.ofNat (p - 1).toNat := Int.ofNat_le.mpr hdiv
    _ = p - 1 := hcast

theorem tsList_out_of_range (nm : SvcNames) (st : Store) (p l : Int)
    (sb so : Option String) (hp : 1 ≤ p) (hl : 1 ≤ l)
    (h : ((st.filter isActiveDoc).length : Int) ≤ (p - 1) * l) :
    tsList nm st ⟨some p, some l, sb, so⟩ =
      PagedResp.ok []
        { page := p, limit := l, total := Int.ofNat (st.filter isActiveDoc).length,
          totalPages := ceilPages (st.filter isActiveDoc).length l,
          hasNext := false, hasPrev := decide (1 < p) } := by
  have hskip : ¬ (p - 1) * l < 0 := by
    have h0 : (0:Int) ≤ (p - 1) * l := mul_nonneg (by omega) (by omega)
    omega
  have hnext : decide (p < ceilPages (st.filter isActiveDoc).length l) = false := by
    have hle := ceilPages_le_of_le (st.filter isActiveDoc).length p l hp hl h
    simp only [decide_eq_false_iff_not]
    omega
  have hdata : ∀ f : String, ∀ dir : Int,
      (sortDocs f dir (st.filter isActiveDoc)).drop ((p - 1) * l).toNat = [] := by
    intro f dir
    apply List.drop_eq_nil_of_le
    rw [length_sortDocs]
    omega
  simp only [tsList, Option.getD_some, if_neg hskip, hdata, hnext]
  simp [applyLimit]

theorem jsList_out_of_range (nm : SvcNames) (st : Store) (p l : Int)
    (sb so : Option String) (hp : 1 ≤ p) (hl : 1 ≤ l) (hl100 : l ≤ 100)
    (h : ((st.filter isActiveDoc).length : Int) ≤ (p - 1) * l) :
    jsList nm st ⟨some p, some l, sb, so⟩ =
      PagedResp.ok []
        { page := p, limit := l, total := Int.ofNat (st.filter isActiveDoc).length,
          totalPages := ceilPages (st.filter isActiveDoc).length l,
          hasNext := false, hasPrev := decide (1 < p) } := by
  have hp0 : ¬ p = 0 := by omega
  have hl0 : ¬ l = 0 := by omega
  have hmin : min l 100 = l := min_eq_left hl100
  have hskip : ¬ (p - 1) * l < 0 := by
    have h0 : (0:Int) ≤ (p - 1) * l := mul_nonneg (by omega) (by omega)
    omega
  have hnext : decide (p < ceilPages (st.filter isActiveDoc).length l) = false := by
    have hle := ceilPages_le_of_le (st.filter isActiveDoc).length p l hp hl h
    simp only [decide_eq_false_iff_not]
    omega
  have hdata : ∀ f : String, ∀ dir : Int,
      (sortDocs f dir (st.filter isActiveDoc)).drop ((p - 1) * l).toNat = [] := by
    intro f dir
    apply List.drop_eq_nil_of_le
    rw [length_sortDocs]
    omega
  cases sb with
  | none =>
    simp only [jsList, hp0, if_false, hl0, hmin, if_neg hskip, hdata, hnext]
    simp [applyLimit]
  | some f =>
    simp only [jsList, hp0, if_false, hl0, hmin, if_neg hskip, hdata, hnext]
    simp [applyLimit]

theorem charMatchI_of_not_dot (pc c : Char) (h : pc ≠ '.') :
    charMatchI pc c = (pc.toLower == c.toLower) := by
  simp [charMatchI, h]

theorem matchHere_eq_hereCI (pat : List Char) (h : '.' ∉ pat) :
    ∀ s, matchHere pat s = hereCI pat s := by
  induction pat with
  | nil => intro s; rfl
  | cons pc ps ih =>
    intro s
    simp only [List.mem_cons, not_or] at h
    cases s with
    | nil => rfl
    | cons c cs =>
      rw [matchHere, hereCI, charMatchI_of_not_dot pc c (fun hh => h.1 hh.symm),
        ih h.2 cs]

theorem regexFind_eq_occursCI (pat : List Char) (h : '.' ∉ pat) :
    ∀ s, regexFind pat s = occursCI pat s := by
  intro s
  induction s with
  | nil => rw [regexFind, occursCI, matchHere_eq_hereCI pat h]
  | cons c cs ih => rw [regexFind, occursCI, matchHere_eq_hereCI pat h, ih]

theorem mongoRegex_eq_substring (q s : String) (h : plainPattern q = true) :
    mongoRegexTestI q s = substringTestCI q s := by
  apply regexFind_eq_occursCI
  intro hmem
  have hq := (List.all_eq_true.mp h) '.' hmem
  simp [regexMeta] at hq

theorem listAnyCongr {α : Type} (xs : List α) (f g : α → Bool)
    (h : ∀ x ∈ xs, f x = g x) : xs.any f = xs.any g := by
  induction xs with
  | nil => rfl
  | cons x rest ih =>
    simp only [List.any_cons, h x (List.mem_cons_self x rest)]
    rw [ih (fun y hy => h y (List.mem_cons_of_mem x hy))]

theorem fieldRegexMatch_eq_substr (q : String) (d : Doc) (f : String)
    (h : plainPattern q = true) : fieldRegexMatch q d f = fieldSubstrMatch q d f := by
  rw [fieldRegexMatch, fieldSubstrMatch]
  cases hv : d.getField f with
  | none => rfl
  | some v =>
    cases v with
    | str s => exact mongoRegex_eq_substring q s h
    | arr xs => exact listAnyCongr xs _ _ (fun x _ => mongoRegex_eq_substring q x h)
    | num n => rfl
    | boolV b => rfl
    | date t => rfl
    | objS es => rfl

theorem searchFilterMatch_eq_spec (fieldSet : List String) (q : String) (d : Doc)
    (h : plainPattern q = true) :
    searchFilterMatch fieldSet q d = specSearchMatch fieldSet q d := by
  rw [searchFilterMatch, specSearchMatch,
    listAnyCongr fieldSet _ _ (fun f _ => fieldRegexMatch_eq_substr q d f h)]

theorem isActiveDoc_applySet_delSet (d : Doc) (now : Int) :
    isActiveDoc (applySet (delSet now) d) = false := by
  have h1 : (applySet (delSet now) d).getField "isActive" = some (Value.boolV false) := by
    rw [delSet, applySet_cons, applySet_cons, applySet_nil,
      Doc.getField_setField_ne _ _ _ _ (by decide), Doc.getField_setField_self]
  simp [isActiveDoc, h1]

/-- C3: delete fails with NotFound only when no record with that id exists at
all (active or not), and deleting an existing record twice in a row succeeds
with `{deleted: true}` both times — for the TypeScript roasters service and
the JavaScript farmers service. -/
theorem c3_delete_idempotent :
    (∀ (st : Store) (id : String) (now : Int),
        (RoastersTS.deleteRoaster st id now).1 = ApiResp.err "Roaster not found" →
        ∀ d ∈ st, d.oid ≠ id)
  ∧ (∀ (st : Store) (id : String) (t1 t2 : Int),
        objectIdIsValid id = true → st.any (fun d => d.oid == id) = true →
        (RoastersTS.deleteRoaster st id t1).1
            = ApiResp.ok true (some "Roaster deleted successfully")
        ∧ (RoastersTS.deleteRoaster (RoastersTS.deleteRoaster st id t1).2 id t2).1
            = ApiResp.ok true (some "Roaster deleted successfully"))
  ∧ (∀ (st : Store) (id : String) (now : Int),
        (FarmersJS.deleteFarmer st id now).1 = ApiResp.err "Farmer not found" →
        ∀ d ∈ st, d.oid ≠ id)
  ∧ (∀ (st : Store) (id : String) (t1 t2 : Int),
        objectIdIsValid id = true → st.any (fun d => d.oid == id) = true →
        (FarmersJS.deleteFarmer st id t1).1
            = ApiResp.ok true (some "Farmer deleted successfully")
        ∧ (FarmersJS.deleteFarmer (FarmersJS.deleteFarmer st id t1).2 id t2).1
            = ApiResp.ok true (some "Farmer deleted successfully")) := by
  refine ⟨?_, ?_, ?_, ?_⟩
  · intro st id now h
    exact svcDelete_err_notFound RoastersTS.names st id now (by decide) h
  · intro st id t1 t2 hv hex
    exact svcDelete_twice RoastersTS.names st id t1 t2 hv hex
  · intro st id now h
    exact svcDelete_err_notFound FarmersJS.names st id now (by decide) h
  · intro st id t1 t2 hv hex
    exact svcDelete_twice FarmersJS.names st id t1 t2 hv hex

/-- C3 witness: a concrete double delete on a one-record store. -/
theorem c3_delete_idempotent_witness :
    (objectIdIsValid oidA = true
      ∧ ([c3Doc] : Store).any (fun d => d.oid == oidA) = true)
    ∧ ((RoastersTS.deleteRoaster [c3Doc] oidA 1).1
          = ApiResp.ok true (some "Roaster deleted successfully")
      ∧ (RoastersTS.deleteRoaster (RoastersTS.deleteRoaster [c3Doc] oidA 1).2 oidA 2).1
          = ApiResp.ok true (some "Roaster deleted successfully")) :=
  ⟨⟨by decide, by decide⟩, c3_delete_idempotent.2.1 [c3Doc] oidA 1 2 (by decide) (by decide)⟩

/-- C6: an id that is not a well-formed ObjectId yields a validation failure
(HTTP 400) on the get, update and delete paths, never a 404 not-found, and
the store is left untouched (no store call is made with the bad id). -/
theorem c6_invalid_id_validation (st : Store) (id : String) (b : FarmerUpdateBody) (now : Int)
    (h : objectIdIsValid id = false) :
    (roasterGetRoute st id).status = 400
    ∧ FarmersJS.getFarmerById st id = ApiResp.err "Invalid farmer ID format"
    ∧ (farmerPutRoute st id b now).1.status = 400
    ∧ (farmerPutRoute st id b now).2 = st
    ∧ (farmerDeleteRoute st id now).1.status = 400
    ∧ (farmerDeleteRoute st id now).2 = st := by
  have hget : (roasterGetRoute st id).status = 400 := by
    by_cases hid : id = ""
    · simp [roasterGetRoute, hid]
    · simp [roasterGetRoute, hid, handleGetRoaster, RoastersTS.getRoasterById, tsGetById, h,
        RoastersTS.names]
  have hjs : FarmersJS.getFarmerById st id = ApiResp.err "Invalid farmer ID format" := by
    simp [FarmersJS.getFarmerById, jsGetById, h, FarmersJS.names]
  have hput : (farmerPutRoute st id b now).1.status = 400
      ∧ (farmerPutRoute st id b now).2 = st := by
    by_cases hid : id = ""
    · constructor <;> simp [farmerPutRoute, hid]
    · by_cases hemp : (buildFarmerUpdateData b).length = 0
      · constructor <;>
          simp [farmerPutRoute, hid, handleUpdateFarmer, hemp]
      · constructor <;>
          simp [farmerPutRoute, hid, handleUpdateFarmer, hemp,
            FarmersTS.updateFarmer, tsUpdate, h, FarmersTS.names]
  have hdel : (farmerDeleteRoute st id now).1.status = 400
      ∧ (farmerDeleteRoute st id now).2 = st := by
    by_cases hid : id = ""
    · constructor <;> simp [farmerDeleteRoute, hid]
    · constructor <;>
        simp [farmerDeleteRoute, hid, handleDeleteFarmer, FarmersTS.deleteFarmer, svcDelete, h,
          FarmersTS.names]
  exact ⟨hget, hjs, hput.1, hput.2, hdel.1, hdel.2⟩

/-- C6 witness: the malformed id "nope" on a one-record store. -/
theorem c6_invalid_id_validation_witness :
    (objectIdIsValid "nope" = false)
    ∧ ((roasterGetRoute [c3Doc] "nope").status = 400
      ∧ FarmersJS.getFarmerById [c3Doc] "nope" = ApiResp.err "Invalid farmer ID format"
      ∧ (farmerPutRoute [c3Doc] "nope" ⟨none, none, none, none, none, none, none, none,
          some true, none⟩ 5).1.status = 400
      ∧ (farmerPutRoute [c3Doc] "nope" ⟨none, none, none, none, none, none, none, none,
          some true, none⟩ 5).2 = [c3Doc]
      ∧ (farmerDeleteRoute [c3Doc] "nope" 5).1.status = 400
      ∧ (farmerDeleteRoute [c3Doc] "nope" 5).2 = [c3Doc]) :=
  ⟨by decide, c6_invalid_id_validation [c3Doc] "nope" ⟨none, none, none, none, none, none,
    none, none, some true, none⟩ 5 (by decide)⟩

/-- C9 counterexample: in the TypeScript connection utility, a failed first
connection attempt leaves the rejected in-flight promise stored in the
module cache, and a subsequent call returns the same failure even though the
store has become reachable — it never makes a fresh attempt. -/
theorem c9_counterexample :
    (tsConnectToClient emptyCache (Except.error "unreachable")).1
        = Except.error "unreachable"
    ∧ (tsConnectToClient emptyCache (Except.error "unreachable")).2.clientPromise
        = some (Except.error "unreachable")
    ∧ (tsConnectToClient (tsConnectToClient emptyCache (Except.error "unreachable")).2
        (Except.ok 1)).1 = Except.error "unreachable" :=
  ⟨rfl, rfl, rfl⟩

/-- C9 (amended): the JavaScript connection utility satisfies the claim — a
failed first attempt leaves the whole cache unpopulated and the next call
makes a fresh attempt that can succeed; the TypeScript utility leaves the
cached client and db handles unpopulated but keeps the rejected in-flight
promise, so every later call re-awaits that same failure. -/
theorem c9_connection_cache_amended :
    (∀ (db : Option Nat) (e : String),
        jsConnectToClient ⟨none, db, none⟩ (Except.error e) = (Except.error e, ⟨none, db, none⟩))
    ∧ (∀ (db : Option Nat) (c : Nat),
        jsConnectToClient ⟨none, db, none⟩ (Except.ok c)
          = (Except.ok c, ⟨some c, db, some (Except.ok c)⟩))
    ∧ (∀ e : String, (tsConnectToClient emptyCache (Except.error e)).2
        = ⟨none, none, some (Except.error e)⟩)
    ∧ (∀ (e : String) (a : Except String Nat),
        (tsConnectToClient (tsConnectToClient emptyCache (Except.error e)).2 a).1
          = Except.error e) := by
  refine ⟨?_, ?_, ?_, ?_⟩ <;> (intros; rfl)

/-- C10: a page beyond the last page of active records is not an error: both
the TypeScript and the JavaScript roasters list return a success envelope
with an empty data array, `hasNext = false` and `hasPrev = (page > 1)`. -/
theorem c10_out_of_range_page (st : Store) (p l : Int) (sb so : Option String)
    (hp : 1 ≤ p) (hl : 1 ≤ l) (hl100 : l ≤ 100)
    (h : ((st.filter isActiveDoc).length : Int) ≤ (p - 1) * l) :
    RoastersTS.getRoasters st ⟨some p, some l, sb, so⟩ =
      PagedResp.ok []
        { page := p, limit := l, total := Int.ofNat (st.filter isActiveDoc).length,
          totalPages := ceilPages (st.filter isActiveDoc).length l,
          hasNext := false, hasPrev := decide (1 < p) }
    ∧ RoastersJS.getRoasters st ⟨some p, some l, sb, so⟩ =
      PagedResp.ok []
        { page := p, limit := l, total := Int.ofNat (st.filter isActiveDoc).length,
          totalPages := ceilPages (st.filter isActiveDoc).length l,
          hasNext := false, hasPrev := decide (1 < p) } :=
  ⟨tsList_out_of_range RoastersTS.names st p l sb so hp hl h,
   jsList_out_of_range RoastersJS.names st p l sb so hp hl hl100 h⟩

/-- C10 witness: page 3 with limit 10 over a store holding one active
record. -/
theorem c10_out_of_range_page_witness :
    ((1:Int) ≤ 3 ∧ (1:Int) ≤ 10 ∧ (10:Int) ≤ 100
      ∧ ((([c3Doc].filter isActiveDoc).length : Int) ≤ (3 - 1) * 10))
    ∧ RoastersTS.getRoasters [c3Doc] ⟨some 3, some 10, none, none⟩ =
        PagedResp.ok []
          { page := 3, limit := 10, total := Int.ofNat ([c3Doc].filter isActiveDoc).length,
            totalPages := ceilPages ([c3Doc].filter isActiveDoc).length 10,
            hasNext := false, hasPrev := decide ((1:Int) < 3) } :=
  ⟨⟨by norm_num, by norm_num, by norm_num, by decide⟩,
   (c10_out_of_range_page [c3Doc] 3 10 none none (by norm_num) (by norm_num)
      (by norm_num) (by decide)).1⟩

/-- C1 counterexample: after a successful soft delete, the TypeScript
`getRoasterById` (which matches on `_id` only, with no `isActive` condition)
still returns the record with `isActive = false` — so the claim that no read
path ever returns an inactive record is false on the cited code. -/
theorem c1_counterexample :
    (RoastersTS.deleteRoaster [c1Doc] oidA 1).1
        = ApiResp.ok true (some "Roaster deleted successfully")
    ∧ RoastersTS.getRoasterById (RoastersTS.deleteRoaster [c1Doc] oidA 1).2 oidA
        = ApiResp.ok c1DocDeleted none
    ∧ isActiveDoc c1DocDeleted = false :=
  ⟨by decide, by decide, by decide⟩

/-- C1 (amended): delete is an update, never a physical removal — after a
successful `deleteRoaster` the store keeps its length and still holds the
record with `isActive = false`; the JavaScript `getRoasterById` (which
filters on `isActive`) then reports not-found, and the list and search paths
only ever return active records.  The TypeScript `getRoasterById`, however,
matches on `_id` alone and does return the inactive record (see the
counterexample). -/
theorem c1_soft_delete_amended (st : Store) (id : String) (now : Int)
    (b : Bool) (m : Option String)
    (hnd : (st.map Doc.oid).Nodup)
    (h : (RoastersTS.deleteRoaster st id now).1 = ApiResp.ok b m) :
    (RoastersTS.deleteRoaster st id now).2.length = st.length
    ∧ (∃ d ∈ (RoastersTS.deleteRoaster st id now).2, d.oid = id ∧ isActiveDoc d = false)
    ∧ RoastersJS.getRoasterById (RoastersTS.deleteRoaster st id now).2 id
        = ApiResp.err "Roaster not found"
    ∧ (∀ ps data pg, RoastersTS.getRoasters (RoastersTS.deleteRoaster st id now).2 ps
          = PagedResp.ok data pg → ∀ d ∈ data, isActiveDoc d = true)
    ∧ (∀ q ps data pg, RoastersTS.searchRoasters (RoastersTS.deleteRoaster st id now).2 q ps
          = PagedResp.ok data pg → ∀ d ∈ data, isActiveDoc d = true) := by
  obtain ⟨hv, hflag, hsnd⟩ := svcDelete_ok_parts RoastersTS.names st id now b m h
  rcases updateOne_spec (fun d => d.oid == id) (applySet (delSet now)) st with
    ⟨hf, _⟩ | ⟨l1, d0, l2, hst, hl1, hd0, _, hsnd2⟩
  · rw [hflag] at hf
    simp at hf
  · have hoid : d0.oid = id := eq_of_beq hd0
    have hstore : (RoastersTS.deleteRoaster st id now).2
        = l1 ++ applySet (delSet now) d0 :: l2 := hsnd.trans hsnd2
    refine ⟨?_, ?_, ?_, ?_, ?_⟩
    · rw [hstore, hst]
      simp
    · refine ⟨applySet (delSet now) d0, ?_, ?_, isActiveDoc_applySet_delSet d0 now⟩
      · rw [hstore]
        exact List.mem_append_right _ (List.mem_cons_self _ _)
      · rw [applySet_oid]
        exact hoid
    · have hnodup2 : d0.oid ∉ l2.map Doc.oid := by
        rw [hst, List.map_append, List.map_cons] at hnd
        exact (List.nodup_cons.mp (List.Nodup.of_append_right hnd)).1
      have hnone : (RoastersTS.deleteRoaster st id now).2.find?
          (fun d => d.oid == id && isActiveDoc d) = none := by
        rw [List.find?_eq_none, hstore]
        intro x hx
        rcases List.mem_append.mp hx with hx1 | hx2
        · simp [hl1 x hx1]
        · rcases List.mem_cons.mp hx2 with hx2 | hx3
          · rw [hx2]
            simp [isActiveDoc_applySet_delSet]
          · have : x.oid ≠ id := by
              intro hxeq
              exact hnodup2 (hoid ▸ hxeq ▸ List.mem_map_of_mem Doc.oid hx3)
            simp [this]
      show jsGetById RoastersJS.names (RoastersTS.deleteRoaster st id now).2 id
          = ApiResp.err "Roaster not found"
      rw [jsGetById, hv, hnone]
      rfl
    · intro ps data pg hl
      exact tsList_data_active RoastersTS.names _ ps data pg hl
    · intro q ps data pg hq d hd
      have := tsSearch_data_match RoastersTS.names RoastersTS.searchFields "totalOrders"
        _ q ps data pg hq d hd
      rw [searchFilterMatch, Bool.and_eq_true] at this
      exact this.1

/-- C1 witness: instantiation on a one-record store. -/
theorem c1_soft_delete_amended_witness :
    ((([c1Doc] : Store).map Doc.oid).Nodup
      ∧ (RoastersTS.deleteRoaster [c1Doc] oidA 1).1
          = ApiResp.ok true (some "Roaster deleted successfully"))
    ∧ ((RoastersTS.deleteRoaster [c1Doc] oidA 1).2.length = ([c1Doc] : Store).length
      ∧ RoastersJS.getRoasterById (RoastersTS.deleteRoaster [c1Doc] oidA 1).2 oidA
          = ApiResp.err "Roaster not found") :=
  ⟨⟨by decide, by decide⟩,
   (c1_soft_delete_amended [c1Doc] oidA 1 true (some "Roaster deleted successfully")
      (by decide) (by decide)).1,
   (c1_soft_delete_amended [c1Doc] oidA 1 true (some "Roaster deleted successfully")
      (by decide) (by decide)).2.2.1⟩

/-- C4 counterexample: the TypeScript `updateRoaster` does not reject an
empty field set — `update(id, {})` succeeds (only `updatedAt` is refreshed)
instead of failing with an InvalidArgument error as the claim states. -/
theorem c4_counterexample :
    (RoastersTS.updateRoaster [c4Doc] oidA [] 7).1
      = ApiResp.ok
          ⟨oidA, [("isActive", Value.boolV true), ("businessName", Value.str "Acme"),
            ("updatedAt", Value.date 7)]⟩
          (some "Roaster updated successfully") := by decide

/-- C4 (amended): for an existing record, `updateRoaster` merges exactly the
supplied top-level fields and refreshes `updatedAt`, leaving every other
field and the id unchanged; but an empty field set is not rejected — the
call still succeeds (the statement below covers `updateData = []` as well),
the empty-field-set rejection living only in the HTTP route handler. -/
theorem c4_partial_update_amended (st : Store) (id : String) (d0 : Doc)
    (updateData : List (String × Value)) (now : Int)
    (hv : objectIdIsValid id = true)
    (hfind : st.find? (fun x => x.oid == id) = some d0)
    (hnd : (updateData.map Prod.fst).Nodup)
    (hupd : "updatedAt" ∉ updateData.map Prod.fst) :
    (RoastersTS.updateRoaster st id updateData now).1
        = ApiResp.ok (applySet (updateData ++ [("updatedAt", Value.date now)]) d0)
            (some "Roaster updated successfully")
    ∧ (applySet (updateData ++ [("updatedAt", Value.date now)]) d0).oid = d0.oid
    ∧ (applySet (updateData ++ [("updatedAt", Value.date now)]) d0).getField "updatedAt"
        = some (Value.date now)
    ∧ (∀ k v, getFieldList k updateData = some v →
        (applySet (updateData ++ [("updatedAt", Value.date now)]) d0).getField k = some v)
    ∧ (∀ k, k ∉ updateData.map Prod.fst → k ≠ "updatedAt" →
        (applySet (updateData ++ [("updatedAt", Value.date now)]) d0).getField k
          = d0.getField k)
    ∧ (RoastersTS.updateRoaster st id updateData now).2.length = st.length := by
  have heq : RoastersTS.updateRoaster st id updateData now =
      (ApiResp.ok (applySet (updateData ++ [("updatedAt", Value.date now)]) d0)
        (some "Roaster updated successfully"),
       (updateOne (fun x => x.oid == id)
          (applySet (updateData ++ [("updatedAt", Value.date now)])) st).2) :=
    tsUpdate_found RoastersTS.names st id updateData now d0 hv hfind
  refine ⟨?_, ?_, ?_, ?_, ?_, ?_⟩
  · rw [heq]
  · exact applySet_oid _ d0
  · rw [applySet_append_single, Doc.getField_setField_self]
  · intro k v hkv
    have hk := getFieldList_some_mem_keys k v updateData hkv
    have hkne : k ≠ "updatedAt" := fun hh => hupd (hh ▸ hk)
    rw [applySet_append_single, Doc.getField_setField_ne _ _ _ _ hkne,
      applySet_getField_mem updateData d0 k v hnd hkv]
  · intro k hk hkne
    rw [applySet_append_single, Doc.getField_setField_ne _ _ _ _ hkne,
      applySet_getField_notMem _ _ _ hk]
  · rw [heq]
    exact updateOne_length _ _ st

/-- C4 witness: updating field A of a record with A=1, B=2 yields A=3, B=2
with `updatedAt` refreshed. -/
theorem c4_partial_update_amended_witness :
    (objectIdIsValid oidB = true
      ∧ ([c4WitDoc] : Store).find? (fun x => x.oid == oidB) = some c4WitDoc
      ∧ (([("A", Value.num 3)].map Prod.fst).Nodup)
      ∧ "updatedAt" ∉ [("A", Value.num 3)].map Prod.fst)
    ∧ ((RoastersTS.updateRoaster [c4WitDoc] oidB [("A", Value.num 3)] 5).1
        = ApiResp.ok (applySet ([("A", Value.num 3)] ++ [("updatedAt", Value.date 5)]) c4WitDoc)
            (some "Roaster updated successfully")
      ∧ (applySet ([("A", Value.num 3)] ++ [("updatedAt", Value.date 5)]) c4WitDoc).getField "A"
          = some (Value.num 3)
      ∧ (applySet ([("A", Value.num 3)] ++ [("updatedAt", Value.date 5)]) c4WitDoc).getField "B"
          = some (Value.num 2)
      ∧ (applySet ([("A", Value.num 3)] ++ [("updatedAt", Value.date 5)]) c4WitDoc).getField
          "updatedAt" = some (Value.date 5)) :=
  ⟨⟨by decide, by decide, by decide, by decide⟩,
   (c4_partial_update_amended [c4WitDoc] oidB c4WitDoc [("A", Value.num 3)] 5
      (by decide) (by decide) (by decide) (by decide)).1,
   by decide, by decide, by decide⟩

theorem jsList_clamps (nm : SvcNames) (st : Store) (p l : Int) (sb so : Option String)
    (hp : 1 ≤ p) (h100 : 100 < l) :
    pagedSuccess (jsList nm st ⟨some p, some l, sb, so⟩) = true
    ∧ pagedLimit (jsList nm st ⟨some p, some l, sb, so⟩) = 100 := by
  have hp0 : ¬ p = 0 := by omega
  have hl0 : ¬ l = 0 := by omega
  have hmin : min l 100 = 100 := min_eq_right (by omega)
  have hskip : ¬ (p - 1) * (100:Int) < 0 := by
    have h0 : (0:Int) ≤ (p - 1) * 100 := mul_nonneg (by omega) (by norm_num)
    omega
  cases sb with
  | none =>
    constructor <;> simp [jsList, hp0, hl0, hmin, hskip, pagedSuccess, pagedLimit]
  | some f =>
    constructor <;> simp [jsList, hp0, hl0, hmin, hskip, pagedSuccess, pagedLimit]

/-- C5 counterexample: `getRoasters` of the JavaScript roasters service does
not fail with a validation error on `limit = 200` (outside [1,100]); it
silently clamps the limit to 100 and runs the query successfully. -/
theorem c5_counterexample :
    RoastersJS.getRoasters [] ⟨none, some 200, none, none⟩ =
      PagedResp.ok []
        { page := 1, limit := 100, total := 0, totalPages := 0,
          hasNext := false, hasPrev := false } := by decide

/-- C5 (amended): the farmers HTTP route validates the pagination input —
any `page < 1` (or unparsable page) and any `limit` outside [1,100] is
rejected with a 400 before a service call; the JavaScript roasters service
itself performs no such validation: an over-large limit is silently clamped
to 100 and the query runs successfully. -/
theorem c5_pagination_validation_amended :
    (∀ (st : Store) (q : FarmersQuery),
        parseIntJS (q.page.getD "1") = none →
        handleGetFarmers st q = FarmersListResult.invalid 400 "Invalid page number")
    ∧ (∀ (st : Store) (q : FarmersQuery) (p : Int),
        parseIntJS (q.page.getD "1") = some p → p < 1 →
        handleGetFarmers st q = FarmersListResult.invalid 400 "Invalid page number")
    ∧ (∀ (st : Store) (q : FarmersQuery) (p : Int),
        parseIntJS (q.page.getD "1") = some p → 1 ≤ p →
        parseIntJS (q.limit.getD "10") = none →
        handleGetFarmers st q
          = FarmersListResult.invalid 400 "Invalid limit (must be between 1 and 100)")
    ∧ (∀ (st : Store) (q : FarmersQuery) (p l : Int),
        parseIntJS (q.page.getD "1") = some p → 1 ≤ p →
        parseIntJS (q.limit.getD "10") = some l → (l < 1 ∨ 100 < l) →
        handleGetFarmers st q
          = FarmersListResult.invalid 400 "Invalid limit (must be between 1 and 100)")
    ∧ (∀ (st : Store) (p l : Int) (sb so : Option String), 1 ≤ p → 100 < l →
        pagedSuccess (RoastersJS.getRoasters st ⟨some p, some l, sb, so⟩) = true
        ∧ pagedLimit (RoastersJS.getRoasters st ⟨some p, some l, sb, so⟩) = 100) := by
  refine ⟨?_, ?_, ?_, ?_, ?_⟩
  · intro st q hparse
    simp [handleGetFarmers, hparse]
  · intro st q p hparse hp
    simp [handleGetFarmers, hparse, hp]
  · intro st q p hparse hp hlim
    have hnp : ¬ p < 1 := by omega
    simp [handleGetFarmers, hparse, hnp, hlim]
  · intro st q p l hparse hp hlim hbad
    have hnp : ¬ p < 1 := by omega
    have hcond : (l < 1 ∨ 100 < l) := hbad
    simp [handleGetFarmers, hparse, hnp, hlim, hcond]
  · intro st p l sb so hp h100
    exact jsList_clamps RoastersJS.names st p l sb so hp h100

/-- C5 witness: page "0" is rejected with 400 by the farmers route, while
the JS roasters service accepts limit 200 and clamps it to 100. -/
theorem c5_pagination_validation_witness :
    (parseIntJS "0" = some 0 ∧ (0:Int) < 1
      ∧ handleGetFarmers [] ⟨some "0", none, none, none, none⟩
          = FarmersListResult.invalid 400 "Invalid page number")
    ∧ ((1:Int) ≤ 1 ∧ (100:Int) < 200
      ∧ pagedSuccess (RoastersJS.getRoasters [] ⟨some 1, some 200, none, none⟩) = true
      ∧ pagedLimit (RoastersJS.getRoasters [] ⟨some 1, some 200, none, none⟩) = 100) :=
  ⟨⟨by decide, by decide,
    c5_pagination_validation_amended.2.1 [] ⟨some "0", none, none, none, none⟩ 0
      (by decide) (by decide)⟩,
   by decide, by decide,
   (c5_pagination_validation_amended.2.2.2.2 [] 1 200 none none (by decide) (by decide)).1,
   (c5_pagination_validation_amended.2.2.2.2 [] 1 200 none none (by decide) (by decide)).2⟩

theorem entryName_key (b : FarmerUpdateBody) (kv : String × Value)
    (h : kv ∈ entryName b) : kv.1 = "name" := by
  cases hb : b.name with
  | none => simp [entryName, hb] at h
  | some s =>
    simp only [entryName, hb, List.mem_singleton] at h
    rw [h]

theorem entryFarmName_key (b : FarmerUpdateBody) (kv : String × Value)
    (h : kv ∈ entryFarmName b) : kv.1 = "farmName" := by
  cases hb : b.farmName with
  | none => simp [entryFarmName, hb] at h
  | some s =>
    simp only [entryFarmName, hb, List.mem_singleton] at h
    rw [h]

theorem entryLocation_key (b : FarmerUpdateBody) (kv : String × Value)
    (h : kv ∈ entryLocation b) : kv.1 = "location" := by
  cases hb : b.location with
  | none => simp [entryLocation, hb] at h
  | some loc =>
    simp only [entryLocation, hb, List.mem_singleton] at h
    rw [h]

theorem entryCoffeeTypes_key (b : FarmerUpdateBody) (kv : String × Value)
    (h : kv ∈ entryCoffeeTypes b) : kv.1 = "coffeeTypes" := by
  cases hb : b.coffeeTypes with
  | none => simp [entryCoffeeTypes, hb] at h
  | some ts =>
    simp only [entryCoffeeTypes, hb] at h
    split at h
    · simp only [List.mem_singleton] at h
      rw [h]
    · simp at h

theorem entryCertifications_key (b : FarmerUpdateBody) (kv : String × Value)
    (h : kv ∈ entryCertifications b) : kv.1 = "certifications" := by
  cases hb : b.certifications with
  | none => simp [entryCertifications, hb] at h
  | some cs =>
    simp only [entryCertifications, hb, List.mem_singleton] at h
    rw [h]

theorem entryContact_key (b : FarmerUpdateBody) (kv : String × Value)
    (h : kv ∈ entryContact b) : kv.1 = "contact" := by
  cases hb : b.contact with
  | none => simp [entryContact, hb] at h
  | some c =>
    simp only [entryContact, hb, List.mem_singleton] at h
    rw [h]

theorem entryDescription_key (b : FarmerUpdateBody) (kv : String × Value)
    (h : kv ∈ entryDescription b) : kv.1 = "description" := by
  cases hb : b.description with
  | none => simp [entryDescription, hb] at h
  | some s =>
    simp only [entryDescription, hb, List.mem_singleton] at h
    rw [h]

theorem entryImages_key (b : FarmerUpdateBody) (kv : String × Value)
    (h : kv ∈ entryImages b) : kv.1 = "images" := by
  cases hb : b.images with
  | none => simp [entryImages, hb] at h
  | some xs =>
    simp only [entryImages, hb, List.mem_singleton] at h
    rw [h]

theorem entryIsActive_key (b : FarmerUpdateBody) (kv : String × Value)
    (h : kv ∈ entryIsActive b) : kv.1 = "isActive" := by
  cases hb : b.isActive with
  | none => simp [entryIsActive, hb] at h
  | some v =>
    simp only [entryIsActive, hb, List.mem_singleton] at h
    rw [h]

theorem entryRating_key (b : FarmerUpdateBody) (kv : String × Value)
    (h : kv ∈ entryRating b) : kv.1 = "rating" := by
  cases hb : b.rating with
  | none => simp [entryRating, hb] at h
  | some r =>
    simp only [entryRating, hb] at h
    split at h
    · simp only [List.mem_singleton] at h
      rw [h]
    · simp at h

theorem buildFarmerUpdateData_keys (b : FarmerUpdateBody) (kv : String × Value)
    (h : kv ∈ buildFarmerUpdateData b) :
    kv.1 = "name" ∨ kv.1 = "farmName" ∨ kv.1 = "location" ∨ kv.1 = "coffeeTypes"
    ∨ kv.1 = "certifications" ∨ kv.1 = "contact" ∨ kv.1 = "description"
    ∨ kv.1 = "images" ∨ kv.1 = "isActive" ∨ kv.1 = "rating" := by
  simp only [buildFarmerUpdateData, List.mem_append] at h
  rcases h with ((((((((h | h) | h) | h) | h) | h) | h) | h) | h) | h
  · exact Or.inl (entryName_key b kv h)
  · exact Or.inr (Or.inl (entryFarmName_key b kv h))
  · exact Or.inr (Or.inr (Or.inl (entryLocation_key b kv h)))
  · exact Or.inr (Or.inr (Or.inr (Or.inl (entryCoffeeTypes_key b kv h))))
  · exact Or.inr (Or.inr (Or.inr (Or.inr (Or.inl (entryCertifications_key b kv h)))))
  · exact Or.inr (Or.inr (Or.inr (Or.inr (Or.inr (Or.inl (entryContact_key b kv h))))))
  · exact Or.inr (Or.inr (Or.inr (Or.inr (Or.inr (Or.inr (Or.inl
      (entryDescription_key b kv h)))))))
  · exact Or.inr (Or.inr (Or.inr (Or.inr (Or.inr (Or.inr (Or.inr (Or.inl
      (entryImages_key b kv h))))))))
  · exact Or.inr (Or.inr (Or.inr (Or.inr (Or.inr (Or.inr (Or.inr (Or.inr (Or.inl
      (entryIsActive_key b kv h)))))))))
  · exact Or.inr (Or.inr (Or.inr (Or.inr (Or.inr (Or.inr (Or.inr (Or.inr (Or.inr
      (entryRating_key b kv h)))))))))

/-- C2 counterexample: a PUT body `{isActive: true}` flows through
`handleUpdateFarmer` into the stored record — the caller directly sets the
managed `isActive` flag (here resurrecting a soft-deleted record). -/
theorem c2_counterexample :
    (handleUpdateFarmer [c2Doc] oidA c2Body 5).1.status = 200
    ∧ (handleUpdateFarmer [c2Doc] oidA c2Body 5).2 = [c2DocAfter]
    ∧ isActiveDoc c2Doc = false
    ∧ isActiveDoc c2DocAfter = true :=
  ⟨by decide, by decide, by decide, by decide⟩

/-- C2 (amended): the farmers update handler never lets a caller set
`createdAt` or `updatedAt` (no body produces those keys, and a successful
update always stamps `updatedAt` with the repository's clock), but the
`isActive` flag is an exception: a body supplying `isActive` has it written
to the stored record. -/
theorem c2_managed_fields_amended :
    (∀ (b : FarmerUpdateBody) (kv : String × Value), kv ∈ buildFarmerUpdateData b →
        kv.1 ≠ "createdAt" ∧ kv.1 ≠ "updatedAt")
    ∧ (∀ (st : Store) (id : String) (b : FarmerUpdateBody) (now : Int) (d : Doc)
        (m : Option String) (st' : Store),
        handleUpdateFarmer st id b now = (⟨200, ApiResp.ok d m⟩, st') →
        d.getField "updatedAt" = some (Value.date now))
    ∧ (∀ (b : FarmerUpdateBody) (v : Bool), b.isActive = some v →
        ("isActive", Value.boolV v) ∈ buildFarmerUpdateData b) := by
  refine ⟨?_, ?_, ?_⟩
  · intro b kv h
    rcases buildFarmerUpdateData_keys b kv h with
      hk | hk | hk | hk | hk | hk | hk | hk | hk | hk <;>
      exact ⟨by rw [hk]; decide, by rw [hk]; decide⟩
  · intro st id b now d m st' h
    by_cases hemp : (buildFarmerUpdateData b).length = 0
    · simp [handleUpdateFarmer, hemp] at h
    · cases hr : (FarmersTS.updateFarmer st id (buildFarmerUpdateData b) now).1 with
      | err e => simp [handleUpdateFarmer, hemp, hr] at h
      | ok d0 m0 =>
        simp only [handleUpdateFarmer, hemp, if_false, hr, Prod.mk.injEq,
          HttpResp.mk.injEq, ApiResp.ok.injEq] at h
        obtain ⟨⟨_, hd, _⟩, _⟩ := h
        obtain ⟨hv, d1, hf, hd1⟩ := tsUpdate_ok_parts FarmersTS.names st id
          (buildFarmerUpdateData b) now d0 m0 hr
        rw [← hd, hd1, applySet_append_single, Doc.getField_setField_self]
  · intro b v hb
    simp [buildFarmerUpdateData, entryIsActive, hb, List.mem_append]

/-- C2 witness: concrete body and record exercising all three parts. -/
theorem c2_managed_fields_amended_witness :
    (("isActive", Value.boolV true) ∈ buildFarmerUpdateData c2Body
      ∧ (("isActive", Value.boolV true).1 ≠ "createdAt"
        ∧ ("isActive", Value.boolV true).1 ≠ "updatedAt"))
    ∧ (handleUpdateFarmer [c2Doc] oidA c2Body 5
          = (⟨200, ApiResp.ok c2DocAfter (some "Farmer updated successfully")⟩, [c2DocAfter])
      ∧ c2DocAfter.getField "updatedAt" = some (Value.date 5)) :=
  ⟨⟨by decide, c2_managed_fields_amended.1 c2Body ("isActive", Value.boolV true) (by decide)⟩,
   ⟨by decide, c2_managed_fields_amended.2.1 [c2Doc] oidA c2Body 5 c2DocAfter
      (some "Farmer updated successfully") [c2DocAfter] (by decide)⟩⟩

/-- C7 counterexample: the query "." is passed to the store as a regular
expression, so it matches a record whose `businessName` is "ab" even though
"." never occurs as a literal substring of any searched field — search is
not exactly the case-insensitive substring rule the claim states. -/
theorem c7_counterexample :
    RoastersTS.searchRoasters [c7Doc] "." ⟨none, none, none, none⟩
      = PagedResp.ok [c7Doc]
          { page := 1, limit := 10, total := 1, totalPages := 1,
            hasNext := false, hasPrev := false }
    ∧ specSearchMatch RoastersTS.searchFields "." c7Doc = false :=
  ⟨by decide, by decide⟩

/-- C7 (amended): the search filter requires the record to be active and
some field of the fixed per-resource set to match `queryText` taken as a
case-insensitive regular expression; for queries free of regex
metacharacters this coincides exactly with the spec's case-insensitive
substring rule, every returned record satisfies the filter, and a record
with location "São Paulo" is returned for both "paulo" and "PAULO". -/
theorem c7_search_match_amended :
    (∀ (q : String) (d : Doc), plainPattern q = true →
        searchFilterMatch RoastersTS.searchFields q d
          = specSearchMatch RoastersTS.searchFields q d)
    ∧ (∀ (q : String) (d : Doc), plainPattern q = true →
        searchFilterMatch FarmersJS.searchFields q d
          = specSearchMatch FarmersJS.searchFields q d)
    ∧ (∀ (st : Store) (q : String) (ps : PaginationParams) (data : List Doc) (pg : PageInfo),
        RoastersTS.searchRoasters st q ps = PagedResp.ok data pg →
        ∀ d ∈ data, searchFilterMatch RoastersTS.searchFields q d = true)
    ∧ (RoastersTS.searchRoasters [c7SaoDoc] "paulo" ⟨none, none, none, none⟩
          = PagedResp.ok [c7SaoDoc]
              { page := 1, limit := 10, total := 1, totalPages := 1,
                hasNext := false, hasPrev := false }
      ∧ RoastersTS.searchRoasters [c7SaoDoc] "PAULO" ⟨none, none, none, none⟩
          = PagedResp.ok [c7SaoDoc]
              { page := 1, limit := 10, total := 1, totalPages := 1,
                hasNext := false, hasPrev := false }) := by
  refine ⟨?_, ?_, ?_, by decide, by decide⟩
  · intro q d h
    exact searchFilterMatch_eq_spec _ q d h
  · intro q d h
    exact searchFilterMatch_eq_spec _ q d h
  · intro st q ps data pg h
    exact tsSearch_data_match RoastersTS.names RoastersTS.searchFields "totalOrders"
      st q ps data pg h

/-- C7 witness: the regex filter and the substring rule agree on the plain
query "paulo", and the record returned for it satisfies the filter. -/
theorem c7_search_match_amended_witness :
    (plainPattern "paulo" = true
      ∧ searchFilterMatch RoastersTS.searchFields "paulo" c7SaoDoc
          = specSearchMatch RoastersTS.searchFields "paulo" c7SaoDoc)
    ∧ searchFilterMatch RoastersTS.searchFields "paulo" c7SaoDoc = true :=
  ⟨⟨by decide, c7_search_match_amended.1 "paulo" c7SaoDoc (by decide)⟩,
   c7_search_match_amended.2.2.1 [c7SaoDoc] "paulo" ⟨none, none, none, none⟩
      [c7SaoDoc] ⟨1, 10, 1, 1, false, false⟩ (by decide) c7SaoDoc (by decide)⟩

/-- C8 counterexample: with an explicit sort (`sortBy=name`, `asc`), the JS
list honours it but the JS search hard-codes a `createdAt` descending sort
and ignores the requested one, so `search("")` and `list` return the same
records in different orders — not the same paginated result. -/
theorem c8_counterexample :
    RoastersJS.getRoasters [c8DocA, c8DocB] ⟨none, none, some "name", some "asc"⟩
      = PagedResp.ok [c8DocA, c8DocB]
          { page := 1, limit := 10, total := 2, totalPages := 1,
            hasNext := false, hasPrev := false }
    ∧ RoastersJS.searchRoasters [c8DocA, c8DocB] "" ⟨none, none, some "name", some "asc"⟩
      = PagedResp.ok [c8DocB, c8DocA]
          { page := 1, limit := 10, total := 2, totalPages := 1,
            hasNext := false, hasPrev := false }
    ∧ ([c8DocA, c8DocB] : List Doc) ≠ [c8DocB, c8DocA] :=
  ⟨by decide, by decide, by decide⟩

/-- C8 (amended): when no explicit sort is requested and every active record
matches the empty query on at least one searched field, the JS
`searchRoasters("")` returns exactly the result of `getRoasters` — same
records, same order, same pagination metadata; with an explicit `sortBy` the
orders can differ (see the counterexample). -/
theorem c8_empty_search_amended (st : Store) (p l : Int) (so : Option String)
    (hp : 1 ≤ p) (hl : 1 ≤ l)
    (hms : ∀ d ∈ st, isActiveDoc d = true →
        RoastersJS.searchFields.any (fieldRegexMatch "" d) = true) :
    RoastersJS.searchRoasters st "" ⟨some p, some l, none, so⟩
      = RoastersJS.getRoasters st ⟨some p, some l, none, so⟩ := by
  have hfeq : st.filter (searchFilterMatch RoastersJS.searchFields "")
      = st.filter isActiveDoc := by
    apply List.filter_congr
    intro d hd
    rw [searchFilterMatch]
    cases ha : isActiveDoc d
    · rfl
    · simp [hms d hd ha]
  have hp0 : ¬ p = 0 := by omega
  have hl0 : ¬ l = 0 := by omega
  have hmin0 : (0:Int) ≤ min l 100 := le_min (by omega) (by norm_num)
  have hskip : ¬ (p - 1) * min l 100 < 0 := by
    have h0 : (0:Int) ≤ (p - 1) * min l 100 := mul_nonneg (by omega) hmin0
    omega
  show jsSearch RoastersJS.names RoastersJS.searchFields st "" ⟨some p, some l, none, so⟩
      = jsList RoastersJS.names st ⟨some p, some l, none, so⟩
  rw [jsSearch, jsList]
  simp only [hfeq, hp0, if_false, hl0]
  rw [if_neg hskip, if_neg hskip]

/-- C8 witness: default sort over two active records. -/
theorem c8_empty_search_amended_witness :
    ((1:Int) ≤ 1 ∧ (1:Int) ≤ 10
      ∧ (∀ d ∈ c8Store, isActiveDoc d = true →
          RoastersJS.searchFields.any (fieldRegexMatch "" d) = true))
    ∧ RoastersJS.searchRoasters c8Store "" ⟨some 1, some 10, none, none⟩
        = RoastersJS.getRoasters c8Store ⟨some 1, some 10, none, none⟩ :=
  ⟨⟨by norm_num, by norm_num, by decide⟩,
   c8_empty_search_amended c8Store 1 10 none (by norm_num) (by norm_num) (by decide)⟩
